import Mathlib

/-!
Shallow embedding of the journey/visit controller of the europharm field-sales
app: the visit state machine, the sample reconciliation engine, the location
tracker and the weekly schedule publisher, as implemented in
src/components/VisitsSchedule.tsx and the tracking helper (src/unnamed/part_003).

Strings are modelled as Lean String, with executable character-level versions
of the JS string primitives the code uses (toLowerCase, trim, digit parsing,
and the comparator passed to Array.prototype.sort).  Calendar days are day
ordinals (Int, days since the Unix epoch, so that JS getDay() is (n + 4) mod 7);
JS Date#setDate rolls over month boundaries, which on ordinals is plain
addition/subtraction.  Database tables (visits, sample_distribution) are lists
of typed rows; the asynchronous supabase calls of the component are sequential
state updates here, matching the await-chain of each handler.
-/

namespace Europharm

/-- ASCII lower-casing of one character, as JS toLowerCase acts on the
sample-type strings used by the app. -/
def charLower (c : Char) : Char :=
  if 65 ≤ c.toNat ∧ c.toNat ≤ 90 then Char.ofNat (c.toNat + 32) else c

/-- s.toLowerCase() . -/
def lowerStr (s : String) : String := ⟨s.data.map charLower⟩

def isWsChar (c : Char) : Bool := c = ' ' || c = '\t' || c = '\n' || c = '\r'

/-- s.trim() . -/
def trimStr (s : String) : String :=
  ⟨((s.data.dropWhile isWsChar).reverse.dropWhile isWsChar).reverse⟩

def digitVal (c : Char) : Option Nat :=
  if 48 ≤ c.toNat ∧ c.toNat ≤ 57 then some (c.toNat - 48) else none

def digitsVal : List Char → Option Nat → Option Nat
  | [], acc => acc
  | c :: cs, acc =>
    match digitVal c, acc with
    | some d, some a => digitsVal cs (some (a * 10 + d))
    | _, _ => none

/-- Number(s) on a non-empty string: the sample-line quantity fields only ever
hold digit strings (setLineQty strips every non-digit character), so Number
yields a non-negative integer; none models NaN for any other input. -/
def parseDigits (s : String) : Option Nat :=
  match s.data with
  | [] => none
  | cs => digitsVal cs (some 0)

/-- l.qty === '' ? 0 : Number(l.qty) — the quantity coercion both
validateRequestedSamples and endJourneyConfirm perform. -/
def jsQtyNum (s : String) : Option Nat :=
  if s = "" then some 0 else parseDigits s

/-- Code-point lexicographic comparison of character lists, the embedding of
the a.localeCompare(b) <= 0 comparator used to sort sample entries. -/
def charListLe : List Char → List Char → Bool
  | [], _ => true
  | _ :: _, [] => false
  | a :: as, b :: bs =>
    if a = b then charListLe as bs else decide (a.toNat < b.toNat)

def strLe (a b : String) : Bool := charListLe a.data b.data

/-- Case-insensitive string match: the semantics of the supabase ilike filter
(no wildcards in the pattern) and of the toLowerCase comparison in
validateRequestedSamples. -/
def iEq (a b : String) : Bool := lowerStr a == lowerStr b

/-! ### Data model -/

/-- Visit status enum: 'planned' | 'en_route' | 'done' | 'skipped'. -/
inductive Status
  | planned
  | en_route
  | done
  | skipped
deriving DecidableEq

/-- One row of the visits table / the rows state of VisitsSchedule (the fields
the journey controller reads or writes; purely presentational fields such as
client_name, specialty and area are omitted). -/
structure VisitRow where
  id : Nat
  visit_date : Int
  status : Status
  visited_by : Option String
  notes : Option String
  note_type : Option String
  sample_type : List String
  sample_distributed : List Nat
deriving DecidableEq

/-- One row of the sample_distribution table. -/
structure DBSampleRow where
  id : Nat
  username : String
  sample_type : String
  qty : Int
deriving DecidableEq

/-- One entry of the loaded per-rep stock ledger (the stock state, as
normalised by loadSampleStock). -/
structure SampleStock where
  id : Nat
  sample_type : String
  qty : Int
deriving DecidableEq

/-- One editable sample line of the finish-visit modal: a type string and a
digit-string quantity. -/
structure SampleLine where
  type : String
  qty : String
deriving DecidableEq

/-! ### Stock ledger operations (sample_distribution table) -/

/-- Total order used for the ORDER BY sample_type ASC of loadSampleStock. -/
def stockRowLe (a b : DBSampleRow) : Prop := strLe a.sample_type b.sample_type = true

instance : DecidableRel stockRowLe := fun a b => by
  unfold stockRowLe
  infer_instance

/-- loadSampleStock u: select the rep's rows ordered by sample_type ascending,
normalised to SampleStock entries. -/
def loadSampleStock (db : List DBSampleRow) (u : String) : List SampleStock :=
  (List.insertionSort stockRowLe (db.filter fun r => r.username == u)).map
    fun r => { id := r.id, sample_type := r.sample_type, qty := r.qty }

/-- findSampleRow u type: first row of sample_distribution with
username = u and sample_type ilike type. -/
def findSampleRow (db : List DBSampleRow) (u t : String) : Option DBSampleRow :=
  (db.filter fun r => r.username == u && iEq r.sample_type t).head?

/-- Fresh primary key for an inserted row. -/
def freshId (db : List DBSampleRow) : Nat :=
  (db.map fun r => r.id).foldr max 0 + 1

/-- decrementStock u type delta: if no row matches, insert one at qty 0; re-find
the row; set its qty to max(0, qty - delta). -/
def decrementStock (db : List DBSampleRow) (u t : String) (delta : Int) : List DBSampleRow :=
  let db1 :=
    match findSampleRow db u t with
    | some _ => db
    | none => db ++ [{ id := freshId db, username := u, sample_type := t, qty := 0 }]
  match findSampleRow db1 u t with
  | none => db1
  | some row =>
    let newQty := max 0 (row.qty - delta)
    db1.map fun r => if r.id = row.id then { r with qty := newQty } else r

/-- Quantity of the rep's row for a type (0 when absent). -/
def qtyFor (db : List DBSampleRow) (u t : String) : Int :=
  match findSampleRow db u t with
  | some row => row.qty
  | none => 0

/-! ### Sample request aggregation and validation -/

/-- req.set(t, (req.get(t) ?? 0) + q) on a JS Map represented as an
insertion-ordered association list. -/
def mapUpsert (m : List (String × Nat)) (t : String) (q : Nat) : List (String × Nat) :=
  if m.any fun p => p.1 == t then
    m.map fun p => if p.1 == t then (p.1, p.2 + q) else p
  else m ++ [(t, q)]

/-- The aggregation loop of validateRequestedSamples: skip lines whose trimmed
type is empty or whose quantity coerces to 0 or NaN, and sum the rest per exact
trimmed type string. -/
def validateReq (lines : List SampleLine) : List (String × Nat) :=
  lines.foldl
    (fun m l =>
      let t := trimStr l.type
      match jsQtyNum l.qty with
      | some (q + 1) => if t = "" then m else mapUpsert m t (q + 1)
      | _ => m)
    []

/-- stock.find(s => s.sample_type.toLowerCase() === t.toLowerCase())?.qty ?? 0 . -/
def availFor (stock : List SampleStock) (t : String) : Int :=
  match stock.find? fun s => iEq s.sample_type t with
  | some s => s.qty
  | none => 0

/-- The shortfall message shown when a requested quantity exceeds stock. -/
def shortfallMsg (avail : Int) (t : String) (q : Nat) : String :=
  "Only " ++ toString avail ++ " of \"" ++ t ++ "\" available (requested " ++
    toString q ++ ")."

/-- The violation scan of validateRequestedSamples over the aggregated request
entries, in insertion order; returns the first shortfall message. -/
def findViolation (stock : List SampleStock) : List (String × Nat) → Option String
  | [] => none
  | (t, q) :: rest =>
    let avail := availFor stock t
    if avail < (q : Int) then some (shortfallMsg avail t q)
    else findViolation stock rest

/-- validateRequestedSamples: none when the batch passes (sampleError is
cleared, the function returns true), some msg when it fails (sampleError is set
to msg, the function returns false).  When the loaded stock ledger is empty the
check is skipped entirely and the batch passes. -/
def validateRequestedSamples (stock : List SampleStock) (lines : List SampleLine) :
    Option String :=
  if stock.length = 0 then none
  else findViolation stock (validateReq lines)

/-- The ways endJourneyConfirm bails out before writing anything. -/
inductive ConfirmError
  | chooseType
  | badQty
deriving DecidableEq

/-- The request-collection loop of endJourneyConfirm: skip blank lines, reject
a quantity without a type and a non-integer quantity (NaN; a negative value is
unrepresentable for a digit string), skip zero quantities, and sum the rest per
exact trimmed type. -/
def collectRequested : List SampleLine → List (String × Nat) →
    Except ConfirmError (List (String × Nat))
  | [], m => Except.ok m
  | l :: rest, m =>
    let t := trimStr l.type
    let q := jsQtyNum l.qty
    if t = "" ∧ q = some 0 then collectRequested rest m
    else if t = "" then Except.error ConfirmError.chooseType
    else
      match q with
      | none => Except.error ConfirmError.badQty
      | some 0 => collectRequested rest m
      | some (n + 1) => collectRequested rest (mapUpsert m t (n + 1))

/-- Total order used for entries.sort((a, b) => a[0].localeCompare(b[0])). -/
def entryLe (a b : String × Nat) : Prop := strLe a.1 b.1 = true

instance : DecidableRel entryLe := fun a b => by
  unfold entryLe
  infer_instance

/-- Array.from(reqMap.entries()).sort((a, b) => a[0].localeCompare(b[0])). -/
def sortEntries (m : List (String × Nat)) : List (String × Nat) :=
  List.insertionSort entryLe m

/-- entries.map(([t, q]) => t + " x" + q).join("; "). -/
def samplesStr (entries : List (String × Nat)) : String :=
  String.intercalate "; " (entries.map fun p => p.1 ++ " x" ++ toString p.2)

/-- [(summary || '').trim(), sample_type.length ? "Samples: " + samplesStr : null]
.filter(Boolean).join("\n"). -/
def buildNotes (summary : String) (entries : List (String × Nat)) : String :=
  String.intercalate "\n"
    ((if trimStr summary = "" then [] else [trimStr summary]) ++
      (if entries.length = 0 then [] else ["Samples: " ++ samplesStr entries]))

/-! ### The journey controller state (newer VisitsSchedule revision) -/

/-- The component state endJourneyConfirm and selectVisit read and write,
together with the sample_distribution table they query. -/
structure AppState where
  rows : List VisitRow
  db : List DBSampleRow
  stock : List SampleStock
  journeyMode : Bool
  activeVisitId : Option Nat
  showFinishModal : Bool
  resolvedUsername : Option String
  me : Option String
  summary : String
  noteType : String
  sampleLines : List SampleLine
  sampleError : Option String
deriving DecidableEq

/-- const who = resolvedUsername ?? me, with the subsequent !who falsiness
check reading "" as missing. -/
def resolvedWho (s : AppState) : String :=
  match s.resolvedUsername with
  | some w => w
  | none =>
    match s.me with
    | some m => m
    | none => ""

/-- selectVisit of the newer VisitsSchedule revision: independent per-visit
toggling, gated on journey mode, the finish modal being closed, and the tapped
visit not being in a terminal state. -/
def selectVisit (s : AppState) (visit : VisitRow) : AppState :=
  if s.journeyMode = false then s
  else if s.showFinishModal then s
  else if visit.status = Status.done ∨ visit.status = Status.skipped then s
  else
    let nextStatus := if visit.status = Status.en_route then Status.planned else Status.en_route
    let who : Option String :=
      match visit.visited_by with
      | some w => some w
      | none => s.me
    let rows2 := s.rows.map fun r =>
      if r.id = visit.id then
        { r with
          status := nextStatus,
          visited_by :=
            if nextStatus = Status.en_route then
              match who with
              | some w => some w
              | none => r.visited_by
            else r.visited_by }
      else r
    if nextStatus = Status.en_route then
      { s with rows := rows2, activeVisitId := some visit.id }
    else if s.activeVisitId = some visit.id then
      { s with rows := rows2, activeVisitId := none }
    else { s with rows := rows2 }

/-- endJourneyConfirm: resolve the visitor, validate the requested samples
against the loaded stock, collect and aggregate the lines, write the visit row
(status done, notes, visitor, note type, parallel sample arrays), decrement the
rep's stock per entry, reset the journey/modal state and reload the ledger. -/
def endJourneyConfirm (s : AppState) : AppState :=
  match s.activeVisitId with
  | none => s
  | some vid =>
    let who := resolvedWho s
    if who = "" then s
    else
      match validateRequestedSamples s.stock s.sampleLines with
      | some msg => { s with sampleError := some msg }
      | none =>
        match collectRequested s.sampleLines [] with
        | Except.error _ => { s with sampleError := none }
        | Except.ok reqMap =>
          let entries := sortEntries reqMap
          let newNotes := buildNotes s.summary entries
          let rows2 := s.rows.map fun r =>
            if r.id = vid then
              { r with
                status := Status.done,
                notes := some newNotes,
                visited_by := some who,
                note_type := some s.noteType,
                sample_type := entries.map fun p => p.1,
                sample_distributed := entries.map fun p => p.2 }
            else r
          let db2 := entries.foldl (fun d p => decrementStock d who p.1 (p.2 : Int)) s.db
          { s with
            rows := rows2,
            db := db2,
            stock := loadSampleStock db2 who,
            showFinishModal := false,
            journeyMode := false,
            activeVisitId := none,
            summary := "",
            sampleLines := [{ type := "", qty := "" }],
            sampleError := none }

/-! ### The close-before-open revision of selectVisit (older VisitsSchedule) -/

/-- The journey state of the older VisitsSchedule revision. -/
structure JState where
  rows : List VisitRow
  activeVisitId : Option Nat
  username : Option String
deriving DecidableEq

/-- selectVisit of the older revision (close-before-open policy): if another
visit is currently active it is first reverted to planned, then the tapped
visit is toggled and the active-visit binding updated. -/
def selectVisitCBO (s : JState) (vid : Nat) : JState :=
  let rows1 : List VisitRow :=
    match s.activeVisitId with
    | some p =>
      if p ≠ vid then
        s.rows.map fun r => if r.id = p then { r with status := Status.planned } else r
      else s.rows
    | none => s.rows
  let goingActive := s.activeVisitId ≠ some vid
  let newStatus := if goingActive then Status.en_route else Status.planned
  let rows2 := rows1.map fun r =>
    if r.id = vid then
      { r with
        status := newStatus,
        visited_by :=
          if goingActive then
            match s.username with
            | some u => some u
            | none => r.visited_by
          else r.visited_by }
    else r
  { s with rows := rows2, activeVisitId := if goingActive then some vid else none }

/-- A sequence of visit selections during a journey. -/
def runSelections (s : JState) (ids : List Nat) : JState :=
  ids.foldl selectVisitCBO s

/-- Session invariant of the close-before-open policy: every en_route row is
the bound active visit. -/
def InvCBO (s : JState) : Prop :=
  ∀ r ∈ s.rows, r.status = Status.en_route → s.activeVisitId = some r.id

/-- At most one visit of the rep is en_route. -/
def AtMostOneEnRoute (rows : List VisitRow) : Prop :=
  ∀ r1 ∈ rows, ∀ r2 ∈ rows,
    r1.status = Status.en_route → r2.status = Status.en_route → r1.id = r2.id

instance (s : JState) : Decidable (InvCBO s) := by
  unfold InvCBO
  infer_instance

instance (rows : List VisitRow) : Decidable (AtMostOneEnRoute rows) := by
  unfold AtMostOneEnRoute
  infer_instance

/-! ### Location tracking (src/unnamed/part_003) -/

/-- The tracker's mutable environment: the two AsyncStorage keys
(track_current_user, track_current_visit_id), the web watchPosition handle,
and whether the native background location task is started. -/
structure TrackState where
  storedUser : Option String
  storedVisitId : Option String
  webWatchId : Option Nat
  nativeStarted : Bool
deriving DecidableEq

/-- stopWebWatch: clear the watchPosition handle if one is set. -/
def stopWebWatch (s : TrackState) : TrackState :=
  if s.webWatchId.isSome then { s with webWatchId := none } else s

/-- stopTracking: remove both storage keys, then stop the platform stream
(clear the web watch, or stop the native task when it is running). -/
def stopTracking (isWeb : Bool) (s : TrackState) : TrackState :=
  let s1 := { s with storedUser := none, storedVisitId := none }
  if isWeb then stopWebWatch s1
  else if s1.nativeStarted then { s1 with nativeStarted := false } else s1

/-- Whether the platform location stream is running. -/
def trackingRunning (isWeb : Bool) (s : TrackState) : Bool :=
  if isWeb then s.webWatchId.isSome else s.nativeStarted

/-! ### Weekly schedule publisher -/

/-- JS Date#getDay on a day ordinal: 0 = Sunday .. 6 = Saturday
(ordinal 0 = 1970-01-01, a Thursday). -/
def getDay (n : Int) : Int := (n + 4) % 7

/-- weekRangeFromISO: the Monday..Sunday pair around a day, computed exactly as
in the source (getDay, Sunday mapped to 7, setDate arithmetic — which on day
ordinals is plain subtraction/addition). -/
def weekRangeFromISO (n : Int) : Int × Int :=
  let day0 := getDay n
  let day := if day0 = 0 then 7 else day0
  let monday := n - (day - 1)
  let sunday := monday + 6
  (monday, sunday)

/-- The filter of sendWeek: rows.filter(r => r.visit_date >= start &&
r.visit_date <= end); comparison of fixed-width ISO date strings coincides with
the order of day ordinals. -/
def sendWeekVisits (rows : List VisitRow) (selectedDay : Int) : List VisitRow :=
  let range := weekRangeFromISO selectedDay
  rows.filter fun v => decide (range.1 ≤ v.visit_date) && decide (v.visit_date ≤ range.2)

/-! ### Concrete states used by witnesses and counterexamples -/

/-- A journey state with an active visit, a ledger holding 10 Vitamin-A, and a
request of Vitamin-A x 12. -/
def cs1 : AppState :=
  { rows := [{ id := 1, visit_date := 20370, status := Status.en_route,
               visited_by := some "rep", notes := none, note_type := none,
               sample_type := [], sample_distributed := [] }],
    db := [{ id := 1, username := "rep", sample_type := "Vitamin-A", qty := 10 }],
    stock := [{ id := 1, sample_type := "Vitamin-A", qty := 10 }],
    journeyMode := true, activeVisitId := some 1, showFinishModal := true,
    resolvedUsername := some "rep", me := some "rep",
    summary := "", noteType := "SALES ORDER",
    sampleLines := [{ type := "Vitamin-A", qty := "12" }],
    sampleError := none }

/-- Same request, but the rep's loaded stock ledger is empty. -/
def cs1e : AppState :=
  { rows := [{ id := 1, visit_date := 20370, status := Status.en_route,
               visited_by := some "rep", notes := none, note_type := none,
               sample_type := [], sample_distributed := [] }],
    db := [], stock := [],
    journeyMode := true, activeVisitId := some 1, showFinishModal := true,
    resolvedUsername := some "rep", me := some "rep",
    summary := "", noteType := "SALES ORDER",
    sampleLines := [{ type := "Vitamin-A", qty := "12" }],
    sampleError := none }

/-- Two planned visits, nothing active: the initial journey state of the
close-before-open witness. -/
def jInit : JState :=
  { rows := [{ id := 1, visit_date := 20370, status := Status.planned,
               visited_by := none, notes := none, note_type := none,
               sample_type := [], sample_distributed := [] },
             { id := 2, visit_date := 20370, status := Status.planned,
               visited_by := none, notes := none, note_type := none,
               sample_type := [], sample_distributed := [] }],
    activeVisitId := none, username := some "rep" }

/-- Ledger holding 10 Vitamin-A and a request of Vitamin-A x 4. -/
def cs3 : AppState :=
  { rows := [{ id := 1, visit_date := 20370, status := Status.en_route,
               visited_by := some "rep", notes := none, note_type := none,
               sample_type := [], sample_distributed := [] }],
    db := [{ id := 1, username := "rep", sample_type := "Vitamin-A", qty := 10 }],
    stock := [{ id := 1, sample_type := "Vitamin-A", qty := 10 }],
    journeyMode := true, activeVisitId := some 1, showFinishModal := true,
    resolvedUsername := some "rep", me := some "rep",
    summary := "", noteType := "SALES ORDER",
    sampleLines := [{ type := "Vitamin-A", qty := "4" }],
    sampleError := none }

/-- The visit row cs3's finalize writes. -/
def doneRow3 : VisitRow :=
  { id := 1, visit_date := 20370, status := Status.done,
    visited_by := some "rep", notes := some "Samples: Vitamin-A x4",
    note_type := some "SALES ORDER",
    sample_type := ["Vitamin-A"], sample_distributed := [4] }

/-- State used by the parallel-arrays witness: one line T x 2. -/
def cs4 : AppState :=
  { rows := [{ id := 7, visit_date := 20371, status := Status.en_route,
               visited_by := some "rep", notes := none, note_type := none,
               sample_type := [], sample_distributed := [] }],
    db := [{ id := 1, username := "rep", sample_type := "T", qty := 5 }],
    stock := [{ id := 1, sample_type := "T", qty := 5 }],
    journeyMode := true, activeVisitId := some 7, showFinishModal := true,
    resolvedUsername := some "rep", me := some "rep",
    summary := "", noteType := "RFR",
    sampleLines := [{ type := "T", qty := "2" }],
    sampleError := none }

/-- The visit row cs4's finalize writes. -/
def doneRow4 : VisitRow :=
  { id := 7, visit_date := 20371, status := Status.done,
    visited_by := some "rep", notes := some "Samples: T x2",
    note_type := some "RFR",
    sample_type := ["T"], sample_distributed := [2] }

/-- A state whose bound active visit is already done (a stale binding, e.g.
after the visit set was reloaded from the server): finalizing decrements the
ledger again. -/
def cs6 : AppState :=
  { rows := [{ id := 1, visit_date := 20370, status := Status.done,
               visited_by := some "rep", notes := some "Samples: Vitamin-A x4",
               note_type := some "SALES ORDER",
               sample_type := ["Vitamin-A"], sample_distributed := [4] }],
    db := [{ id := 1, username := "rep", sample_type := "Vitamin-A", qty := 10 }],
    stock := [{ id := 1, sample_type := "Vitamin-A", qty := 10 }],
    journeyMode := true, activeVisitId := some 1, showFinishModal := true,
    resolvedUsername := some "rep", me := some "rep",
    summary := "", noteType := "SALES ORDER",
    sampleLines := [{ type := "Vitamin-A", qty := "4" }],
    sampleError := none }

/-- A terminal visit row for the terminal-no-op witness. -/
def v6w : VisitRow :=
  { id := 3, visit_date := 20370, status := Status.skipped,
    visited_by := none, notes := none, note_type := none,
    sample_type := [], sample_distributed := [] }

/-- A journey state containing the terminal visit v6w. -/
def s6w : AppState :=
  { rows := [v6w],
    db := [], stock := [],
    journeyMode := true, activeVisitId := none, showFinishModal := false,
    resolvedUsername := none, me := some "rep",
    summary := "", noteType := "SALES ORDER",
    sampleLines := [{ type := "", qty := "" }],
    sampleError := none }

/-- Empty stock ledger, positive request of a type the rep has no stock for. -/
def cs9 : AppState :=
  { rows := [{ id := 1, visit_date := 20370, status := Status.en_route,
               visited_by := some "rep", notes := none, note_type := none,
               sample_type := [], sample_distributed := [] }],
    db := [], stock := [],
    journeyMode := true, activeVisitId := some 1, showFinishModal := true,
    resolvedUsername := some "rep", me := some "rep",
    summary := "", noteType := "SALES ORDER",
    sampleLines := [{ type := "NoStock", qty := "5" }],
    sampleError := none }

/-- Out-of-order, duplicated sample lines for the sorted/deduplicated witness. -/
def cs10 : AppState :=
  { rows := [{ id := 1, visit_date := 20370, status := Status.en_route,
               visited_by := some "rep", notes := none, note_type := none,
               sample_type := [], sample_distributed := [] }],
    db := [{ id := 1, username := "rep", sample_type := "b", qty := 9 },
           { id := 2, username := "rep", sample_type := "a", qty := 9 }],
    stock := [{ id := 2, sample_type := "a", qty := 9 },
              { id := 1, sample_type := "b", qty := 9 }],
    journeyMode := true, activeVisitId := some 1, showFinishModal := true,
    resolvedUsername := some "rep", me := some "rep",
    summary := "", noteType := "SALES ORDER",
    sampleLines := [{ type := "b", qty := "2" }, { type := "a", qty := "3" },
                    { type := "b", qty := "1" }],
    sampleError := none }

/-- The visit row cs10's finalize writes. -/
def doneRow10 : VisitRow :=
  { id := 1, visit_date := 20370, status := Status.done,
    visited_by := some "rep", notes := some "Samples: a x3; b x3",
    note_type := some "SALES ORDER",
    sample_type := ["a", "b"], sample_distributed := [3, 3] }

/-! ### Helper lemmas -/

theorem char_eq_of_toNat_eq {x y : Char} (h : x.toNat = y.toNat) : x = y := by
  have hx := Char.ofNat_toNat x
  rw [h, Char.ofNat_toNat] at hx
  exact hx.symm

theorem charListLe_total (a b : List Char) : charListLe a b || charListLe b a := by
  induction a generalizing b with
  | nil => simp [charListLe]
  | cons x xs ih =>
    cases b with
    | nil => simp [charListLe]
    | cons y ys =>
      by_cases h : x = y
      · subst h
        simpa [charListLe] using ih ys
      · have h2 : ¬ y = x := fun e => h e.symm
        have h3 : x.toNat ≠ y.toNat := fun e => h (char_eq_of_toNat_eq e)
        simp only [charListLe, if_neg h, if_neg h2, Bool.or_eq_true, decide_eq_true_eq]
        omega

theorem charListLe_trans {a b c : List Char} (h1 : charListLe a b) (h2 : charListLe b c) :
    charListLe a c := by
  induction a generalizing b c with
  | nil => simp [charListLe]
  | cons x xs ih =>
    cases b with
    | nil => simp [charListLe] at h1
    | cons y ys =>
      cases c with
      | nil => simp [charListLe] at h2
      | cons z zs =>
        by_cases hxy : x = y
        · subst hxy
          by_cases hyz : x = z
          · subst hyz
            simp only [charListLe, if_pos rfl] at h1 h2 ⊢
            exact ih h1 h2
          · simp only [charListLe, if_pos rfl] at h1
            simp only [charListLe, if_neg hyz] at h2 ⊢
            exact h2
        · by_cases hyz : y = z
          · subst hyz
            simp only [charListLe, if_neg hxy] at h1 ⊢
            exact h1
          · have hxz : x ≠ z := by
              intro e
              subst e
              simp only [charListLe, if_neg hxy] at h1
              have h2b : ¬ y = x := fun e => hxy e.symm
              simp only [charListLe, if_neg h2b] at h2
              simp only [decide_eq_true_eq] at h1 h2
              omega
            simp only [charListLe, if_neg hxy] at h1
            simp only [charListLe, if_neg hyz] at h2
            simp only [charListLe, if_neg hxz, decide_eq_true_eq] at h1 h2 ⊢
            omega

theorem charListLe_antisymm {a b : List Char} (h1 : charListLe a b) (h2 : charListLe b a) :
    a = b := by
  induction a generalizing b with
  | nil =>
    cases b with
    | nil => rfl
    | cons y ys => simp [charListLe] at h2
  | cons x xs ih =>
    cases b with
    | nil => simp [charListLe] at h1
    | cons y ys =>
      by_cases hxy : x = y
      · subst hxy
        simp only [charListLe, if_pos rfl] at h1 h2
        rw [ih h1 h2]
      · have h2b : ¬ y = x := fun e => hxy e.symm
        simp only [charListLe, if_neg hxy, decide_eq_true_eq] at h1
        simp only [charListLe, if_neg h2b, decide_eq_true_eq] at h2
        omega

theorem strLe_total (a b : String) : strLe a b || strLe b a :=
  charListLe_total a.data b.data

theorem strLe_trans {a b c : String} (h1 : strLe a b) (h2 : strLe b c) : strLe a c :=
  charListLe_trans h1 h2

theorem strLe_antisymm {a b : String} (h1 : strLe a b) (h2 : strLe b a) : a = b := by
  cases a
  cases b
  exact congrArg String.mk (charListLe_antisymm h1 h2)

theorem iEq_refl (t : String) : iEq t t = true := by
  simp [iEq]

theorem findSampleRow_map (db : List DBSampleRow) (u t : String)
    (f : DBSampleRow → DBSampleRow)
    (hf : ∀ r, (f r).username = r.username ∧ (f r).sample_type = r.sample_type) :
    findSampleRow (db.map f) u t = (findSampleRow db u t).map f := by
  unfold findSampleRow
  rw [List.filter_map]
  have hp : ((fun r => r.username == u && iEq r.sample_type t) ∘ f) =
      (fun r => r.username == u && iEq r.sample_type t) := by
    funext r
    simp [Function.comp, (hf r).1, (hf r).2]
  rw [hp, List.head?_map]

theorem findSampleRow_append_fresh (db : List DBSampleRow) (u t : String)
    (h : findSampleRow db u t = none) (x : DBSampleRow)
    (hx : x.username = u) (ht : iEq x.sample_type t = true) :
    findSampleRow (db ++ [x]) u t = some x := by
  unfold findSampleRow at h ⊢
  rw [List.head?_eq_none_iff] at h
  rw [List.filter_append, h, List.nil_append]
  simp [List.filter, hx, ht]

/-! ### Claim theorems -/

/-- Claim C5: decrementStock creates a zero-quantity row for the rep and type
when none exists, then sets the matched row's quantity to
max(0, oldQuantity - delta); the resulting quantity is never negative. -/
theorem decrementStock_spec (db : List DBSampleRow) (u t : String) (delta : Int) :
    (findSampleRow (decrementStock db u t delta) u t).isSome = true ∧
    qtyFor (decrementStock db u t delta) u t = max 0 (qtyFor db u t - delta) ∧
    0 ≤ qtyFor (decrementStock db u t delta) u t := by
  have key : ∀ (db1 : List DBSampleRow) (row : DBSampleRow),
      findSampleRow db1 u t = some row →
      findSampleRow
          (db1.map fun r =>
            if r.id = row.id then { r with qty := max 0 (row.qty - delta) } else r) u t =
        some { row with qty := max 0 (row.qty - delta) } := by
    intro db1 row hrow
    rw [findSampleRow_map db1 u t _ (fun r => by split <;> simp)]
    rw [hrow]
    simp
  rcases h : findSampleRow db u t with _ | row
  · -- no row: one is inserted at qty 0, re-found, then floored-decremented
    have hnew : findSampleRow
        (db ++ [{ id := freshId db, username := u, sample_type := t, qty := 0 }]) u t =
        some { id := freshId db, username := u, sample_type := t, qty := 0 } :=
      findSampleRow_append_fresh db u t h _ rfl (iEq_refl t)
    have hq : qtyFor db u t = 0 := by
      unfold qtyFor
      rw [h]
    unfold decrementStock
    rw [h]
    simp only []
    rw [hnew]
    simp only []
    have := key _ _ hnew
    refine ⟨?_, ?_, ?_⟩
    · rw [this]
      rfl
    · unfold qtyFor
      rw [this, h]
    · unfold qtyFor
      rw [this]
      exact le_max_left 0 _
  · -- the matched row is floored-decremented in place
    have hq : qtyFor db u t = row.qty := by
      unfold qtyFor
      rw [h]
    unfold decrementStock
    rw [h]
    simp only []
    rw [h]
    simp only []
    have := key _ _ h
    refine ⟨?_, ?_, ?_⟩
    · rw [this]
      rfl
    · unfold qtyFor
      rw [this, h]
    · unfold qtyFor
      rw [this]
      exact le_max_left 0 _

/-- Claim C7: stopTracking is idempotent, always clears the session affinity
(stored user and bound visit id), leaves the platform stream stopped, and is a
no-op exactly when tracking is not running and no affinity is stored. -/
theorem stopTracking_idempotent (w : Bool) (s : TrackState) :
    stopTracking w (stopTracking w s) = stopTracking w s ∧
    (stopTracking w s).storedUser = none ∧
    (stopTracking w s).storedVisitId = none ∧
    trackingRunning w (stopTracking w s) = false ∧
    (stopTracking w s = s ↔
      (trackingRunning w s = false ∧ s.storedUser = none ∧ s.storedVisitId = none)) := by
  rcases s with ⟨u, v, ww, n⟩
  cases w <;> cases u <;> cases v <;> cases ww <;> cases n <;>
    simp [stopTracking, stopWebWatch, trackingRunning]

/-- Claim C8: the computed week is the Monday-to-Sunday week containing the
given day (the start is a Monday on or before it, the end is the start plus
six days, and the day lies in the inclusive range), and the weekly snapshot
collects exactly the loaded visits whose date lies in that inclusive range. -/
theorem weekRange_spec (n : Int) (rows : List VisitRow) (v : VisitRow) :
    getDay (weekRangeFromISO n).1 = 1 ∧
    (weekRangeFromISO n).1 ≤ n ∧
    n ≤ (weekRangeFromISO n).2 ∧
    (weekRangeFromISO n).2 = (weekRangeFromISO n).1 + 6 ∧
    (v ∈ sendWeekVisits rows n ↔
      v ∈ rows ∧ (weekRangeFromISO n).1 ≤ v.visit_date ∧
        v.visit_date ≤ (weekRangeFromISO n).2) := by
  refine ⟨?_, ?_, ?_, ?_, ?_⟩
  · simp only [weekRangeFromISO, getDay]
    split <;> omega
  · simp only [weekRangeFromISO, getDay]
    split <;> omega
  · simp only [weekRangeFromISO, getDay]
    split <;> omega
  · simp only [weekRangeFromISO, getDay]
  · simp only [sendWeekVisits, List.mem_filter, Bool.and_eq_true, decide_eq_true_eq]

/-- Claim C3: with stock Vitamin-A = 10 and a request of Vitamin-A x 4, the
finalize succeeds: the visit becomes done with sample_type = [Vitamin-A] and
sample_distributed = [4], and the rep stock drops from 10 to 6. -/
theorem finalize_vitaminA_success :
    qtyFor cs3.db "rep" "Vitamin-A" = 10 ∧
    cs3.sampleLines = [{ type := "Vitamin-A", qty := "4" }] ∧
    (endJourneyConfirm cs3).sampleError = none ∧
    (endJourneyConfirm cs3).rows = [doneRow3] ∧
    qtyFor (endJourneyConfirm cs3).db "rep" "Vitamin-A" = 6 ∧
    (endJourneyConfirm cs3).stock = [{ id := 1, sample_type := "Vitamin-A", qty := 6 }] := by
  decide

/-- Claim C9: with an empty loaded stock ledger, validateRequestedSamples
accepts every list of requested lines without any shortfall check, and a
finalize requesting a positive quantity of a type the rep has no stock for
(available 0) is accepted: the visit becomes done and no error is set. -/
theorem validate_empty_stock_accepts :
    (∀ lines, validateRequestedSamples [] lines = none) ∧
    cs9.stock = [] ∧
    cs9.sampleLines = [{ type := "NoStock", qty := "5" }] ∧
    availFor cs9.stock "NoStock" = 0 ∧
    (endJourneyConfirm cs9).sampleError = none ∧
    (endJourneyConfirm cs9).rows.map (fun r => r.status) = [Status.done] := by
  refine ⟨fun lines => rfl, by decide, by decide, by decide, by decide, by decide⟩

theorem selectVisitCBO_inv (s : JState) (vid : Nat) (h : InvCBO s) :
    InvCBO (selectVisitCBO s vid) := by
  intro r hr hst
  unfold selectVisitCBO at hr ⊢
  by_cases hg : s.activeVisitId = some vid
  · -- the tapped visit was the active one: it reverts to planned, binding cleared
    rw [hg] at hr ⊢
    simp only [ne_eq, not_true_eq_false, if_false, ite_false, reduceIte] at hr ⊢
    rcases List.mem_map.mp hr with ⟨r0, hr0, rfl⟩
    by_cases hid : r0.id = vid
    · simp [hid] at hst
    · simp only [if_neg hid] at hst
      have := h r0 hr0 hst
      rw [hg] at this
      exact ((hid (Option.some.inj this).symm)).elim
  · -- a different (or no) visit was active: the tapped visit becomes the
    -- unique en_route row and the binding moves to it
    simp only [ne_eq, hg, not_false_eq_true, if_true, ite_true, reduceIte] at hr ⊢
    rcases List.mem_map.mp hr with ⟨r1, hr1, rfl⟩
    by_cases hid : r1.id = vid
    · simp only [if_pos hid]
      rcases ha : s.activeVisitId with _ | p
      · rw [ha] at hr1
        simp only [hid]
      · rw [ha] at hr1
        simp only [hid]
    · exfalso
      simp only [if_neg hid] at hst
      rcases ha : s.activeVisitId with _ | p
      · rw [ha] at hr1
        have := h r1 hr1 hst
        rw [ha] at this
        exact Option.noConfusion this
      · rw [ha] at hr1
        have hp : p ≠ vid := fun e => hg (by rw [ha, e])
        simp only [ne_eq, hp, not_false_eq_true, if_true, ite_true, reduceIte] at hr1
        rcases List.mem_map.mp hr1 with ⟨r0, hr0, rfl⟩
        by_cases hid0 : r0.id = p
        · simp [hid0] at hst
        · simp only [if_neg hid0] at hst hid
          have := h r0 hr0 hst
          rw [ha] at this
          exact hid0 (Option.some.inj this).symm

/-- Claim C2: under the close-before-open policy, selecting a visit first
reverts any other en_route visit to planned, so from any state satisfying the
session invariant, every sequence of visit selections preserves it and no
reachable state has two visits simultaneously en_route. -/
theorem cbo_at_most_one_en_route (s : JState) (ids : List Nat) (h : InvCBO s) :
    InvCBO (runSelections s ids) ∧ AtMostOneEnRoute (runSelections s ids).rows := by
  have hinv : InvCBO (runSelections s ids) := by
    induction ids generalizing s with
    | nil => exact h
    | cons i is ih => exact ih (selectVisitCBO s i) (selectVisitCBO_inv s i h)
  refine ⟨hinv, ?_⟩
  intro r1 h1 r2 h2 e1 e2
  have k1 := hinv r1 h1 e1
  have k2 := hinv r2 h2 e2
  rw [k1] at k2
  exact Option.some.inj k2

/-- Witness for cbo_at_most_one_en_route: two planned visits, selections
1, 2, 1 (select, switch, re-select). -/
theorem cbo_at_most_one_en_route_witness :
    InvCBO jInit ∧
    (InvCBO (runSelections jInit [1, 2, 1]) ∧
      AtMostOneEnRoute (runSelections jInit [1, 2, 1]).rows) :=
  ⟨by decide, cbo_at_most_one_en_route jInit [1, 2, 1] (by decide)⟩

theorem findViolation_of_exists (stock : List SampleStock) (req : List (String × Nat))
    (h : ∃ p ∈ req, availFor stock p.1 < (p.2 : Int)) :
    ∃ t q, (t, q) ∈ req ∧ availFor stock t < (q : Int) ∧
      findViolation stock req = some (shortfallMsg (availFor stock t) t q) := by
  induction req with
  | nil =>
    rcases h with ⟨p, hp, _⟩
    exact absurd hp (List.not_mem_nil p)
  | cons hd tl ih =>
    rcases hd with ⟨t0, q0⟩
    by_cases h0 : availFor stock t0 < (q0 : Int)
    · refine ⟨t0, q0, List.mem_cons_self _ _, h0, ?_⟩
      unfold findViolation
      simp only [h0, if_pos]
    · have htl : ∃ p ∈ tl, availFor stock p.1 < (p.2 : Int) := by
        rcases h with ⟨p, hp, hv⟩
        rcases List.mem_cons.mp hp with rfl | hmem
        · exact absurd hv h0
        · exact ⟨p, hmem, hv⟩
      rcases ih htl with ⟨t, q, hmem, hv, hfind⟩
      refine ⟨t, q, List.mem_cons_of_mem _ hmem, hv, ?_⟩
      unfold findViolation
      simp only [if_neg h0]
      exact hfind

theorem validateRequestedSamples_eq (stock : List SampleStock) (lines : List SampleLine)
    (hs : stock ≠ []) :
    validateRequestedSamples stock lines = findViolation stock (validateReq lines) := by
  unfold validateRequestedSamples
  rw [if_neg (by simpa [List.length_eq_zero] using hs)]

theorem endJourneyConfirm_reject (s : AppState) (vid : Nat) (msg : String)
    (hvid : s.activeVisitId = some vid)
    (hwho : resolvedWho s ≠ "")
    (hval : validateRequestedSamples s.stock s.sampleLines = some msg) :
    endJourneyConfirm s = { s with sampleError := some msg } := by
  simp only [endJourneyConfirm, hvid]
  rw [if_neg hwho, hval]

/-- Claim C1 (amended): provided the loaded stock ledger is non-empty, if any
requested quantity (aggregated per exact trimmed type string) exceeds the
available stock for its type (case-insensitive lookup), the finalize is
rejected: sampleError is set to the shortfall message naming the type, the
available quantity and the requested quantity, and nothing else changes — in
particular no stock line and no visit row of the rep is modified. -/
theorem finalize_shortfall_rejected (s : AppState) (vid : Nat)
    (hvid : s.activeVisitId = some vid)
    (hwho : resolvedWho s ≠ "")
    (hs : s.stock ≠ [])
    (hviol : ∃ p ∈ validateReq s.sampleLines, availFor s.stock p.1 < (p.2 : Int)) :
    ∃ t q, (t, q) ∈ validateReq s.sampleLines ∧ availFor s.stock t < (q : Int) ∧
      endJourneyConfirm s =
        { s with sampleError := some (shortfallMsg (availFor s.stock t) t q) } := by
  rcases findViolation_of_exists s.stock _ hviol with ⟨t, q, hmem, hv, hfind⟩
  refine ⟨t, q, hmem, hv, ?_⟩
  exact endJourneyConfirm_reject s vid _ hvid hwho
    ((validateRequestedSamples_eq s.stock s.sampleLines hs).trans hfind)

/-- Witness for finalize_shortfall_rejected: stock Vitamin-A = 10, request
Vitamin-A x 12 — rejected citing available 10 and requested 12, stock stays
untouched. -/
theorem finalize_shortfall_rejected_witness :
    cs1.stock ≠ [] ∧
    (∃ t q, (t, q) ∈ validateReq cs1.sampleLines ∧ availFor cs1.stock t < (q : Int) ∧
      endJourneyConfirm cs1 =
        { cs1 with sampleError := some (shortfallMsg (availFor cs1.stock t) t q) }) :=
  ⟨by decide,
    finalize_shortfall_rejected cs1 1 (by decide) (by decide) (by decide)
      ⟨("Vitamin-A", 12), by decide, by decide⟩⟩

/-- Counterexample to claim C1 as stated: with an empty loaded stock ledger a
request of Vitamin-A x 12 exceeds the available quantity (0), yet the finalize
is accepted — no shortfall error is raised and the visit is written done —
because validateRequestedSamples skips the check when the ledger is empty. -/
theorem finalize_shortfall_not_rejected_on_empty_stock :
    cs1e.stock = [] ∧
    availFor cs1e.stock "Vitamin-A" < (12 : Int) ∧
    cs1e.sampleLines = [{ type := "Vitamin-A", qty := "12" }] ∧
    (endJourneyConfirm cs1e).sampleError = none ∧
    (endJourneyConfirm cs1e).rows.map (fun r => r.status) = [Status.done] := by
  decide

theorem endJourneyConfirm_active_none (s : AppState) (h : s.activeVisitId = none) :
    endJourneyConfirm s = s := by
  unfold endJourneyConfirm
  rw [h]

theorem endJourneyConfirm_who_empty (s : AppState) (vid : Nat)
    (hvid : s.activeVisitId = some vid) (hwho : resolvedWho s = "") :
    endJourneyConfirm s = s := by
  simp only [endJourneyConfirm, hvid]
  rw [if_pos hwho]

theorem endJourneyConfirm_collect_error (s : AppState) (vid : Nat) (e : ConfirmError)
    (hvid : s.activeVisitId = some vid) (hwho : resolvedWho s ≠ "")
    (hval : validateRequestedSamples s.stock s.sampleLines = none)
    (hcol : collectRequested s.sampleLines [] = Except.error e) :
    endJourneyConfirm s = { s with sampleError := none } := by
  simp only [endJourneyConfirm, hvid]
  rw [if_neg hwho, hval, hcol]

theorem endJourneyConfirm_success_active (s : AppState) (vid : Nat)
    (reqMap : List (String × Nat))
    (hvid : s.activeVisitId = some vid) (hwho : resolvedWho s ≠ "")
    (hval : validateRequestedSamples s.stock s.sampleLines = none)
    (hcol : collectRequested s.sampleLines [] = Except.ok reqMap) :
    (endJourneyConfirm s).activeVisitId = none := by
  simp only [endJourneyConfirm, hvid]
  rw [if_neg hwho, hval, hcol]

/-- Claim C6 (amended): selecting a visit in a terminal state (done or skipped)
is rejected as a silent no-op that leaves the whole state unchanged, and
endJourneyConfirm is idempotent — after a finalize the active-visit binding is
cleared, so running endJourneyConfirm again changes nothing and performs no
second stock decrement.  (endJourneyConfirm itself performs no terminal-state
check; see the counterexample for a stale binding to an already-done visit.) -/
theorem terminal_noop_and_confirm_idem :
    (∀ (s : AppState) (v : VisitRow),
        v.status = Status.done ∨ v.status = Status.skipped → selectVisit s v = s) ∧
    (∀ s : AppState, endJourneyConfirm (endJourneyConfirm s) = endJourneyConfirm s) := by
  constructor
  · intro s v hv
    unfold selectVisit
    by_cases h1 : s.journeyMode = false
    · rw [if_pos h1]
    · rw [if_neg h1]
      by_cases h2 : s.showFinishModal = true
      · rw [if_pos h2]
      · rw [if_neg h2, if_pos hv]
  · intro s
    rcases ha : s.activeVisitId with _ | vid
    · rw [endJourneyConfirm_active_none s ha, endJourneyConfirm_active_none s ha]
    · by_cases hw : resolvedWho s = ""
      · rw [endJourneyConfirm_who_empty s vid ha hw, endJourneyConfirm_who_empty s vid ha hw]
      · rcases hval : validateRequestedSamples s.stock s.sampleLines with _ | msg
        · rcases hcol : collectRequested s.sampleLines [] with e | reqMap
          · have h1 := endJourneyConfirm_collect_error s vid e ha hw hval hcol
            rw [h1]
            have h2 := endJourneyConfirm_collect_error
              { s with sampleError := none } vid e ha hw hval hcol
            rw [h2]
          · have h2 := endJourneyConfirm_success_active s vid reqMap ha hw hval hcol
            rw [endJourneyConfirm_active_none (endJourneyConfirm s) h2]
        · have h1 := endJourneyConfirm_reject s vid msg ha hw hval
          rw [h1]
          have h2 := endJourneyConfirm_reject
            { s with sampleError := some msg } vid msg ha hw hval
          rw [h2]

/-- Witness for terminal_noop_and_confirm_idem: a skipped visit is a no-op to
select, and a double confirm equals a single confirm. -/
theorem terminal_noop_and_confirm_idem_witness :
    (v6w.status = Status.done ∨ v6w.status = Status.skipped) ∧
    selectVisit s6w v6w = s6w ∧
    endJourneyConfirm (endJourneyConfirm s6w) = endJourneyConfirm s6w :=
  ⟨by decide,
    terminal_noop_and_confirm_idem.1 s6w v6w (by decide),
    terminal_noop_and_confirm_idem.2 s6w⟩

/-- Counterexample to claim C6 as stated: endJourneyConfirm never checks the
visit status, so finalizing a state whose active binding points at a visit that
is already done is not rejected — it runs the whole commit again and decrements
the stock a second time (10 to 6 here). -/
theorem finalize_already_done_decrements_again :
    (cs6.rows.map fun r => r.status) = [Status.done] ∧
    cs6.activeVisitId = some 1 ∧
    qtyFor cs6.db "rep" "Vitamin-A" = 10 ∧
    qtyFor (endJourneyConfirm cs6).db "rep" "Vitamin-A" = 6 := by
  decide

theorem endJourneyConfirm_success_rows (s : AppState) (vid : Nat)
    (reqMap : List (String × Nat))
    (hvid : s.activeVisitId = some vid) (hwho : resolvedWho s ≠ "")
    (hval : validateRequestedSamples s.stock s.sampleLines = none)
    (hcol : collectRequested s.sampleLines [] = Except.ok reqMap) :
    (endJourneyConfirm s).rows = s.rows.map fun r =>
      if r.id = vid then
        { r with
          status := Status.done,
          notes := some (buildNotes s.summary (sortEntries reqMap)),
          visited_by := some (resolvedWho s),
          note_type := some s.noteType,
          sample_type := (sortEntries reqMap).map fun p => p.1,
          sample_distributed := (sortEntries reqMap).map fun p => p.2 }
      else r := by
  simp only [endJourneyConfirm, hvid]
  rw [if_neg hwho, hval, hcol]

/-- Claim C4: on every finalize the sample_type and sample_distributed arrays
written to the visit have equal length — every row of the post-finalize state
either was already present or carries parallel arrays of the same length. -/
theorem finalize_parallel_arrays (s : AppState) (r : VisitRow)
    (hr : r ∈ (endJourneyConfirm s).rows) :
    r ∈ s.rows ∨ r.sample_type.length = r.sample_distributed.length := by
  rcases ha : s.activeVisitId with _ | vid
  · rw [endJourneyConfirm_active_none s ha] at hr
    exact Or.inl hr
  · by_cases hw : resolvedWho s = ""
    · rw [endJourneyConfirm_who_empty s vid ha hw] at hr
      exact Or.inl hr
    · rcases hval : validateRequestedSamples s.stock s.sampleLines with _ | msg
      · rcases hcol : collectRequested s.sampleLines [] with e | reqMap
        · rw [endJourneyConfirm_collect_error s vid e ha hw hval hcol] at hr
          exact Or.inl hr
        · rw [endJourneyConfirm_success_rows s vid reqMap ha hw hval hcol] at hr
          rcases List.mem_map.mp hr with ⟨r0, hr0, rfl⟩
          by_cases hid : r0.id = vid
          · rw [if_pos hid]
            right
            simp
          · rw [if_neg hid]
            exact Or.inl hr0
      · rw [endJourneyConfirm_reject s vid msg ha hw hval] at hr
        exact Or.inl hr

/-- Witness for finalize_parallel_arrays: the finalized row of cs4 carries
["T"] and [2]. -/
theorem finalize_parallel_arrays_witness :
    doneRow4 ∈ (endJourneyConfirm cs4).rows ∧
    (doneRow4 ∈ cs4.rows ∨
      doneRow4.sample_type.length = doneRow4.sample_distributed.length) :=
  ⟨by decide, finalize_parallel_arrays cs4 doneRow4 (by decide)⟩

theorem mapUpsert_keys_nodup (m : List (String × Nat)) (t : String) (q : Nat)
    (h : (m.map fun p => p.1).Nodup) :
    ((mapUpsert m t q).map fun p => p.1).Nodup := by
  unfold mapUpsert
  by_cases hany : (m.any fun p => p.1 == t) = true
  · rw [if_pos hany]
    have : ((m.map fun p => if p.1 == t then (p.1, p.2 + q) else p).map fun p => p.1) =
        m.map fun p => p.1 := by
      rw [List.map_map]
      apply List.map_congr_left
      intro p _
      simp only [Function.comp]
      split <;> rfl
    rw [this]
    exact h
  · rw [if_neg hany]
    rw [List.map_append]
    simp only [List.map_cons, List.map_nil]
    rw [List.nodup_append]
    refine ⟨h, List.nodup_singleton t, ?_⟩
    intro a ha hb
    rcases List.mem_map.mp ha with ⟨p, hp, rfl⟩
    rcases List.mem_singleton.mp hb with rfl
    rw [List.any_eq_true] at hany
    exact hany ⟨p, hp, by simp⟩

theorem mapUpsert_pos (m : List (String × Nat)) (t : String) (q : Nat)
    (h : ∀ p ∈ m, 0 < p.2) (hq : 0 < q) :
    ∀ p ∈ mapUpsert m t q, 0 < p.2 := by
  unfold mapUpsert
  by_cases hany : (m.any fun p => p.1 == t) = true
  · rw [if_pos hany]
    intro p hp
    rcases List.mem_map.mp hp with ⟨p0, hp0, rfl⟩
    by_cases he : (p0.1 == t) = true
    · rw [if_pos he]
      have := h p0 hp0
      simp
      omega
    · rw [if_neg he]
      exact h p0 hp0
  · rw [if_neg hany]
    intro p hp
    rcases List.mem_append.mp hp with hmem | hmem
    · exact h p hmem
    · rcases List.mem_singleton.mp hmem with rfl
      exact hq

theorem collectRequested_inv (lines : List SampleLine) :
    ∀ (m res : List (String × Nat)),
      collectRequested lines m = Except.ok res →
      (m.map fun p => p.1).Nodup → (∀ p ∈ m, 0 < p.2) →
      ((res.map fun p => p.1).Nodup ∧ ∀ p ∈ res, 0 < p.2) := by
  induction lines with
  | nil =>
    intro m res hok hnd hpos
    rw [collectRequested] at hok
    cases hok
    exact ⟨hnd, hpos⟩
  | cons l rest ih =>
    intro m res hok hnd hpos
    rw [collectRequested] at hok
    by_cases h1 : trimStr l.type = "" ∧ jsQtyNum l.qty = some 0
    · rw [if_pos h1] at hok
      exact ih m res hok hnd hpos
    · rw [if_neg h1] at hok
      by_cases h2 : trimStr l.type = ""
      · rw [if_pos h2] at hok
        cases hok
      · rw [if_neg h2] at hok
        rcases hq : jsQtyNum l.qty with _ | n
        · rw [hq] at hok
          cases hok
        · rw [hq] at hok
          cases n with
          | zero => exact ih m res hok hnd hpos
          | succ k =>
            exact ih _ res hok
              (mapUpsert_keys_nodup m (trimStr l.type) (k + 1) hnd)
              (mapUpsert_pos m (trimStr l.type) (k + 1) hpos (Nat.succ_pos k))

theorem sortEntries_perm (m : List (String × Nat)) : List.Perm (sortEntries m) m :=
  List.perm_insertionSort entryLe m

theorem sortEntries_sorted (m : List (String × Nat)) :
    List.Sorted entryLe (sortEntries m) := by
  have htot : IsTotal (String × Nat) entryLe :=
    ⟨fun a b => by
      have h := strLe_total a.1 b.1
      rcases Bool.or_eq_true_iff.mp h with h1 | h1
      · exact Or.inl h1
      · exact Or.inr h1⟩
  have htr : IsTrans (String × Nat) entryLe :=
    ⟨fun a b c h1 h2 => strLe_trans h1 h2⟩
  exact List.sorted_insertionSort entryLe m

/-- Claim C10: every visit row written by a finalize carries a sample_type
array that is duplicate-free and strictly ascending in the sort order of the
entries (lexicographic on code points), and a sample_distributed array whose
entries are all strictly positive. -/
theorem finalize_samples_sorted_positive (s : AppState) (r : VisitRow)
    (hr : r ∈ (endJourneyConfirm s).rows) (hnew : r ∉ s.rows) :
    List.Pairwise (fun a b => strLe a b = true ∧ a ≠ b) r.sample_type ∧
    ∀ q ∈ r.sample_distributed, 0 < q := by
  rcases ha : s.activeVisitId with _ | vid
  · rw [endJourneyConfirm_active_none s ha] at hr
    exact absurd hr hnew
  · by_cases hw : resolvedWho s = ""
    · rw [endJourneyConfirm_who_empty s vid ha hw] at hr
      exact absurd hr hnew
    · rcases hval : validateRequestedSamples s.stock s.sampleLines with _ | msg
      · rcases hcol : collectRequested s.sampleLines [] with e | reqMap
        · rw [endJourneyConfirm_collect_error s vid e ha hw hval hcol] at hr
          exact absurd hr hnew
        · rw [endJourneyConfirm_success_rows s vid reqMap ha hw hval hcol] at hr
          rcases List.mem_map.mp hr with ⟨r0, hr0, rfl⟩
          by_cases hid : r0.id = vid
          · rw [if_pos hid]
            have hinv := collectRequested_inv s.sampleLines [] reqMap hcol
              (by simp) (by simp)
            have hperm := sortEntries_perm reqMap
            have hnd : ((sortEntries reqMap).map fun p => p.1).Nodup :=
              ((hperm.map fun p => p.1).symm).nodup hinv.1
            have hpos : ∀ p ∈ sortEntries reqMap, 0 < p.2 := fun p hp =>
              hinv.2 p (hperm.mem_iff.mp hp)
            constructor
            · have hsorted := sortEntries_sorted reqMap
              have hne : (sortEntries reqMap).Pairwise fun a b => a.1 ≠ b.1 :=
                List.pairwise_map.mp hnd
              have hboth : (sortEntries reqMap).Pairwise fun a b =>
                  strLe a.1 b.1 = true ∧ a.1 ≠ b.1 := by
                have := List.Pairwise.and hsorted hne
                exact this.imp fun h => ⟨h.1, h.2⟩
              exact List.pairwise_map.mpr hboth
            · intro q hq
              rcases List.mem_map.mp hq with ⟨p, hp, rfl⟩
              exact hpos p hp
          · rw [if_neg hid] at hnew
            exact absurd hr0 hnew
      · rw [endJourneyConfirm_reject s vid msg ha hw hval] at hr
        exact absurd hr hnew

/-- Witness for finalize_samples_sorted_positive: lines b x2, a x3, b x1 yield
the deduplicated, sorted arrays ["a", "b"] and [3, 3]. -/
theorem finalize_samples_sorted_positive_witness :
    doneRow10 ∈ (endJourneyConfirm cs10).rows ∧
    doneRow10 ∉ cs10.rows ∧
    (List.Pairwise (fun a b => strLe a b = true ∧ a ≠ b) doneRow10.sample_type ∧
      ∀ q ∈ doneRow10.sample_distributed, 0 < q) :=
  ⟨by decide, by decide,
    finalize_samples_sorted_positive cs10 doneRow10 (by decide) (by decide)⟩

end Europharm
